import Mathlib

/-
Verification of the simperby CLI layer (src/cli/src/main.rs): hex codec,
transaction construction, signing, command routing, process entry point and
top-level error handling, embedded shallowly as executable Lean definitions.
-/

namespace Simperby

/-! ## Hex codec (the hex crate as used by to_commit_hash and sign custom) -/

/-- Failure modes of hexadecimal byte decoding, mirroring the hex crate:
an invalid character, or an odd number of digits. -/
inductive HexError
  | invalidChar
  | oddLength
deriving DecidableEq, Repr

/-- Decode a single hexadecimal digit character (0-9, a-f, A-F). -/
def hexDigit? (c : Char) : Option Nat :=
  let n := c.toNat
  if 48 ≤ n ∧ n ≤ 57 then some (n - 48)
  else if 97 ≤ n ∧ n ≤ 102 then some (n - 87)
  else if 65 ≤ n ∧ n ≤ 70 then some (n - 55)
  else none

/-- Decode consecutive pairs of hexadecimal digits into bytes. -/
def hexPairs : List Char → Except HexError (List Nat)
  | [] => .ok []
  | [_] => .error .oddLength
  | a :: b :: rest =>
    match hexDigit? a, hexDigit? b with
    | some hi, some lo =>
      match hexPairs rest with
      | .ok bs => .ok ((16 * hi + lo) :: bs)
      | .error e => .error e
    | _, _ => .error .invalidChar

/-- hex::decode: reject an odd number of digits up front, then decode pairs. -/
def hexDecode (l : List Char) : Except HexError (List Nat) :=
  if l.length % 2 = 0 then hexPairs l else .error .oddLength

/-- Lowercase hexadecimal digit character for a value below 16. -/
def toHexChar (n : Nat) : Char :=
  if n < 10 then Char.ofNat (48 + n) else Char.ofNat (87 + n)

/-- Two hexadecimal digit characters encoding one byte. -/
def hexEncodeByte (b : Nat) : List Char := [toHexChar (b / 16), toHexChar (b % 16)]

/-- hex::encode: each byte becomes two hexadecimal characters. -/
def hexEncode : List Nat → List Char
  | [] => []
  | b :: rest => hexEncodeByte b ++ hexEncode rest

/-- A string is valid hexadecimal for byte decoding: an even number of
characters, all of them hexadecimal digits. -/
def isValidHexStr (s : String) : Prop :=
  s.data.length % 2 = 0 ∧ ∀ c ∈ s.data, (hexDigit? c).isSome = true

instance (s : String) : Decidable (isValidHexStr s) := by
  unfold isValidHexStr; infer_instance

/-! ## Domain data types (simperby_common, shapes fixed by their use in main.rs) -/

/-- Milliseconds since the epoch, produced by get_timestamp. -/
abbrev Timestamp := Nat

/-- Height of a block in the ledger. -/
abbrev BlockHeight := Nat

/-- Twenty-byte commit-identifying hash, field name as in the source. -/
structure CommitHash where
  hash : List Nat
deriving DecidableEq, Repr

/-- Thirty-two-byte general purpose hash (Hash256.from_array). -/
structure Hash256 where
  bytes : List Nat
deriving DecidableEq, Repr

/-- Public key of a participant. -/
structure PublicKey where
  bytes : List Nat
deriving DecidableEq, Repr

/-- Private key held in the node configuration. -/
structure PrivateKey where
  bytes : List Nat
deriving DecidableEq, Repr

/-- An untyped cryptographic signature value (also used as a proof field). -/
structure Signature where
  bytes : List Nat
deriving DecidableEq, Repr

/-- Opaque last-finalization-proof value consumed by sync. -/
structure LastFinalizationProof where
  raw : List Nat
deriving DecidableEq, Repr

/-- Node configuration: the two key fields the CLI layer reads. -/
structure Config where
  public_key : PublicKey
  private_key : PrivateKey
deriving DecidableEq, Repr

/-- Unsigned delegation payload built by the sign path. Its field set is
fixed by the struct literal in main.rs: delegator, delegatee, governance,
block_height, and nothing else (in particular no timestamp field). -/
structure DelegationTransactionData where
  delegator : PublicKey
  delegatee : PublicKey
  governance : Bool
  block_height : BlockHeight
deriving DecidableEq, Repr

/-- Unsigned undelegation payload built by the sign path. -/
structure UndelegationTransactionData where
  delegator : PublicKey
  block_height : BlockHeight
deriving DecidableEq, Repr

/-- Delegation extra-agenda transaction, fields as in the struct literal. -/
structure TxDelegate where
  delegator : PublicKey
  delegatee : PublicKey
  governance : Bool
  proof : Signature
  timestamp : Timestamp
deriving DecidableEq, Repr

/-- Undelegation extra-agenda transaction, fields as in the struct literal. -/
structure TxUndelegate where
  delegator : PublicKey
  proof : Signature
  timestamp : Timestamp
deriving DecidableEq, Repr

/-- Tagged union of extra-agenda transaction kinds; the report variant is
reserved and unimplemented. -/
inductive ExtraAgendaTransaction
  | delegate (tx : TxDelegate)
  | undelegate (tx : TxUndelegate)
  | report
deriving DecidableEq, Repr

/-! ## Hash codec of the source: to_commit_hash -/

/-- to_commit_hash from main.rs: hex-decode, mapping any hex failure to the
invalid-hash message, then require exactly 20 bytes. -/
def to_commit_hash (s : String) : Except String CommitHash :=
  match hexDecode s.data with
  | .error _ => .error "invalid hash"
  | .ok bytes =>
    if bytes.length = 20 then .ok ⟨bytes⟩ else .error "a hash must be in 20 bytes"

/-! ## Signer

Modelled from the spec: the signing primitives live in simperby_common,
outside src/. Per the spec, signing is a pure, deterministic function of
(payload, private key) computed over the byte-canonical encoding of the
payload, and a typed signature carries a payload-kind tag that verification
checks. -/

/-- Modelled from the spec: the public key derived from a private key.
The key-derivation algorithm is outside src/; any fixed injective
derivation models the spec contract. -/
def publicKeyOf (key : PrivateKey) : PublicKey := ⟨key.bytes⟩

/-- Modelled from the spec: signing binds the key holder to exactly the
byte-canonical encoding of the payload; pure and deterministic. -/
def signBytes (payload : List Nat) (key : PrivateKey) : List Nat :=
  payload ++ (publicKeyOf key).bytes

/-- Modelled from the spec: verification checks the signature against the
canonical payload encoding under the given public key. -/
def verifyBytes (sig payload : List Nat) (pk : PublicKey) : Bool :=
  sig == payload ++ pk.bytes

/-- Modelled from the spec: Signature::sign over a raw 32-byte hash, the
degenerate ad-hoc signing path with no payload type binding. -/
def signHash (h : Hash256) (key : PrivateKey) : List Nat :=
  signBytes h.bytes key

/-- Byte-canonical encoding of a delegation payload, with a leading kind
tag so distinct payload types never share an encoding. -/
def encodeDelegation (d : DelegationTransactionData) : List Nat :=
  0 :: (d.delegator.bytes ++ 255 :: d.delegatee.bytes
    ++ [if d.governance then 1 else 0, d.block_height])

/-- Byte-canonical encoding of an undelegation payload. -/
def encodeUndelegation (u : UndelegationTransactionData) : List Nat :=
  1 :: (u.delegator.bytes ++ [u.block_height])

/-- The payload type a typed signature is permanently associated with. -/
inductive PayloadKind
  | delegation
  | undelegation
deriving DecidableEq, Repr

/-- Modelled from the spec: TypedSignature carries, fixed at construction,
the kind of the payload type it was computed over. -/
structure TypedSignature where
  kind : PayloadKind
  signature : List Nat
deriving DecidableEq, Repr

/-- TypedSignature sign instantiated at DelegationTransactionData. -/
def signDelegation (d : DelegationTransactionData) (key : PrivateKey) : TypedSignature :=
  ⟨.delegation, signBytes (encodeDelegation d) key⟩

/-- TypedSignature sign instantiated at UndelegationTransactionData. -/
def signUndelegation (u : UndelegationTransactionData) (key : PrivateKey) : TypedSignature :=
  ⟨.undelegation, signBytes (encodeUndelegation u) key⟩

/-- Modelled from the spec: verifying a typed signature against an
undelegation payload checks the payload-kind tag before the signature. -/
def verifyUndelegation (ts : TypedSignature) (u : UndelegationTransactionData)
    (pk : PublicKey) : Bool :=
  match ts.kind with
  | .undelegation => verifyBytes ts.signature (encodeUndelegation u) pk
  | _ => false

/-- Modelled from the spec: verifying a typed signature against a
delegation payload checks the payload-kind tag before the signature. -/
def verifyDelegation (ts : TypedSignature) (d : DelegationTransactionData)
    (pk : PublicKey) : Bool :=
  match ts.kind with
  | .delegation => verifyBytes ts.signature (encodeDelegation d) pk
  | _ => false

/-! ## Command surface (cli module, shape fixed by the match in main.rs) -/

/-- Subcommands of create, from the match arms of run. -/
inductive CreateCommands
  | txDelegate (delegator delegatee : String) (governance : Bool) (proof : String)
  | txUndelegate (delegator proof : String)
  | txReport
  | block
  | agenda
deriving DecidableEq, Repr

/-- Subcommands of sign, from the match arms of run. -/
inductive SignCommands
  | txDelegate (delegatee : String) (governance : Bool) (target_height : BlockHeight)
  | txUndelegate (target_height : BlockHeight)
  | custom (hash : String)
deriving DecidableEq, Repr

/-- Top-level commands, from the match arms of run. The consensus flag is
named showFlag and the show command showCommit because show is reserved. -/
inductive Commands
  | genesis
  | init
  | clone (url : String)
  | sync (last_finalization_proof : String)
  | clean (hard : Bool)
  | create (c : CreateCommands)
  | vote (commit : String)
  | veto (commit : Option String)
  | consensus (showFlag : Bool)
  | git
  | showCommit (commit : String)
  | network
  | serve
  | update
  | broadcast
  | chat
  | sign (c : SignCommands)
  | checkPush
  | notifyPush
deriving DecidableEq, Repr

/-- The semantic role of a field being decoded by serde_spb::from_str,
used to record which decode attempts a run makes and in which order. -/
inductive FieldRole
  | delegator
  | delegatee
  | proof
  | lastFinalizationProof
  | voteTarget
  | vetoTarget
deriving DecidableEq, Repr

/-- Lifecycle operations invoked on the external node (and the free
functions genesis, clone, serve, show of the node crate). -/
inductive NodeOp
  | genesis
  | clone (url : String)
  | sync (p : LastFinalizationProof)
  | clean (hard : Bool)
  | createExtraAgendaTransaction (tx : ExtraAgendaTransaction)
  | createBlock
  | createAgenda
  | vote (h : CommitHash)
  | vetoRound
  | vetoBlock (h : CommitHash)
  | progressForConsensus
  | fetch
  | broadcast
  | showOp (h : CommitHash)
  | serve
deriving DecidableEq, Repr

/-- Observable events of one run invocation, in program order: the
initNode event models the initialize call on the external node. -/
inductive Event
  | initNode
  | decodeAttempt (f : FieldRole)
  | nodeOp (op : NodeOp)
  | sign (sig : List Nat)
deriving DecidableEq, Repr

/-- Errors run can return: an eyre validation message, a propagated hex
decoding error, or the distinguished integrity error raised by the
external node. -/
inductive RunError
  | validation (msg : String)
  | hexErr (e : HexError)
  | integrity
deriving DecidableEq, Repr

/-- Outcome of one run invocation: normal completion, an error return, or
a panic from a todo placeholder. -/
inductive RunResult
  | ok
  | error (e : RunError)
  | panicked (msg : String)
deriving DecidableEq, Repr

/-- The structured-value decoders (serde_spb::from_str at each field type).
Their implementations live outside src/, so run is parameterized over
them; a decoder yields a fully valid value or fails. -/
structure Decoders where
  decodePublicKey : String → Option PublicKey
  decodeSignature : String → Option Signature
  decodeCommitHash : String → Option CommitHash
  decodeLastFinalizationProof : String → Option LastFinalizationProof

/-- A length-category failure of the ad-hoc hash signing path: either the
hex crate odd-length error or the 32-byte length message. -/
def isLengthError : RunError → Prop
  | .hexErr .oddLength => True
  | .validation msg => msg = "a hash must be in 32 bytes"
  | _ => False

/-- The command router run from main.rs, as a function from the decoders,
the current clock value (get_timestamp), the configuration and the parsed
command to the ordered event trace and the outcome. External node
operations are recorded as events; their internal semantics are out of
scope and modelled as completing. -/
def run (dec : Decoders) (now : Timestamp) (config : Config) (cmd : Commands) :
    List Event × RunResult :=
  match cmd with
  | .genesis => ([.nodeOp .genesis], .ok)
  | .init => ([], .panicked "not yet implemented")
  | .clone url => ([.nodeOp (.clone url)], .ok)
  | .sync lfp =>
    match dec.decodeLastFinalizationProof lfp with
    | none => ([.initNode, .decodeAttempt .lastFinalizationProof],
        .error (.validation "invalid last finalization proof for sync"))
    | some p => ([.initNode, .decodeAttempt .lastFinalizationProof, .nodeOp (.sync p)], .ok)
  | .clean hard => ([.initNode, .nodeOp (.clean hard)], .ok)
  | .create (.txDelegate delegator delegatee governance proof) =>
    match dec.decodePublicKey delegator with
    | none => ([.initNode, .decodeAttempt .delegator],
        .error (.validation "invalid delegator for a delegation transaction"))
    | some dgr =>
      match dec.decodePublicKey delegatee with
      | none => ([.initNode, .decodeAttempt .delegator, .decodeAttempt .delegatee],
          .error (.validation "invalid delegatee for a delegation transaction"))
      | some dge =>
        match dec.decodeSignature proof with
        | none => ([.initNode, .decodeAttempt .delegator, .decodeAttempt .delegatee,
            .decodeAttempt .proof],
            .error (.validation "invalid proof for a delegation transaction"))
        | some prf =>
          ([.initNode, .decodeAttempt .delegator, .decodeAttempt .delegatee,
            .decodeAttempt .proof,
            .nodeOp (.createExtraAgendaTransaction
              (.delegate ⟨dgr, dge, governance, prf, now⟩))], .ok)
  | .create (.txUndelegate delegator proof) =>
    match dec.decodePublicKey delegator with
    | none => ([.initNode, .decodeAttempt .delegator],
        .error (.validation "invalid delegator for an undelegation transaction"))
    | some dgr =>
      match dec.decodeSignature proof with
      | none => ([.initNode, .decodeAttempt .delegator, .decodeAttempt .proof],
          .error (.validation "invalid proof for an undelegation transaction"))
      | some prf =>
        ([.initNode, .decodeAttempt .delegator, .decodeAttempt .proof,
          .nodeOp (.createExtraAgendaTransaction (.undelegate ⟨dgr, prf, now⟩))], .ok)
  | .create .txReport => ([], .panicked "not yet implemented: TxReport is not implemented yet")
  | .create .block => ([.initNode, .nodeOp .createBlock], .ok)
  | .create .agenda => ([.initNode, .nodeOp .createAgenda], .ok)
  | .vote commit =>
    match dec.decodeCommitHash commit with
    | none => ([.initNode, .decodeAttempt .voteTarget],
        .error (.validation "invalid agenda commit hash to vote on"))
    | some h => ([.initNode, .decodeAttempt .voteTarget, .nodeOp (.vote h)], .ok)
  | .veto none => ([.initNode, .nodeOp .vetoRound], .ok)
  | .veto (some commit) =>
    match dec.decodeCommitHash commit with
    | none => ([.initNode, .decodeAttempt .vetoTarget],
        .error (.validation "invalid block commit hash to veto on"))
    | some h => ([.initNode, .decodeAttempt .vetoTarget, .nodeOp (.vetoBlock h)], .ok)
  | .consensus true => ([], .ok)
  | .consensus false => ([.initNode, .nodeOp .progressForConsensus], .ok)
  | .git => ([], .panicked "not yet implemented")
  | .showCommit commit =>
    match to_commit_hash commit with
    | .error msg => ([.initNode], .error (.validation msg))
    | .ok h => ([.initNode, .nodeOp (.showOp h)], .ok)
  | .network => ([], .panicked "not yet implemented")
  | .serve => ([.nodeOp .serve], .ok)
  | .update => ([.initNode, .nodeOp .fetch], .ok)
  | .broadcast => ([.initNode, .nodeOp .broadcast], .ok)
  | .chat => ([], .panicked "not yet implemented: chat is not implemented yet")
  | .sign (.txDelegate delegatee governance target_height) =>
    match dec.decodePublicKey delegatee with
    | none => ([.decodeAttempt .delegatee],
        .error (.validation "invalid delegatee for a delegation transaction"))
    | some dge =>
      ([.decodeAttempt .delegatee,
        .sign (signDelegation
          ⟨config.public_key, dge, governance, target_height⟩ config.private_key).signature],
        .ok)
  | .sign (.txUndelegate target_height) =>
      ([.sign (signUndelegation
          ⟨config.public_key, target_height⟩ config.private_key).signature], .ok)
  | .sign (.custom hashText) =>
    match hexDecode hashText.data with
    | .error e => ([], .error (.hexErr e))
    | .ok bytes =>
      if bytes.length = 32 then
        ([.sign (signHash ⟨bytes⟩ config.private_key)], .ok)
      else ([], .error (.validation "a hash must be in 32 bytes"))
  | .checkPush => ([], .panicked "not yet implemented: check push is not implemented yet")
  | .notifyPush => ([], .panicked "not yet implemented: notify push is not implemented yet")

/-- Modelled from the spec: concrete decoders for witnesses. Public keys
are 32 bytes hex, signatures 64 bytes hex, commit hashes exactly 20 bytes
hex; the finalization proof decoder accepts any nonempty text. -/
def specDecoders : Decoders where
  decodePublicKey s :=
    match hexDecode s.data with
    | .ok bs => if bs.length = 32 then some ⟨bs⟩ else none
    | .error _ => none
  decodeSignature s :=
    match hexDecode s.data with
    | .ok bs => if bs.length = 64 then some ⟨bs⟩ else none
    | .error _ => none
  decodeCommitHash s :=
    match hexDecode s.data with
    | .ok bs => if bs.length = 20 then some ⟨bs⟩ else none
    | .error _ => none
  decodeLastFinalizationProof s :=
    if s.data.isEmpty then none else some ⟨s.data.map Char.toNat⟩

/-- A sample configuration for concrete evaluations. -/
def sampleConfig : Config :=
  ⟨⟨List.replicate 32 3⟩, ⟨List.replicate 32 5⟩⟩

/-! ## Process entry point and top-level handler -/

/-- Top-level actions main can take. The parse, load-config and call-run
actions exist in the source only after an unconditional return, so the
entry point can never emit them. -/
inductive MainAction
  | genesisProposer (key : String)
  | genesisNonProposer (key : String)
  | parseCliArguments
  | loadConfig
  | callRun
deriving DecidableEq, Repr

/-- Outcome of the process entry point. -/
inductive MainResult
  | ok
  | panicked (msg : String)
deriving DecidableEq, Repr

/-- The entry point main from main.rs: unwrap the first two process
arguments, dispatch the genesis proposer flow when the second is the
letter s and the non-proposer flow otherwise, then return Ok. Everything
after the unconditional return statement is unreachable and absent here. -/
def mainEntry (argv : List String) : List MainAction × MainResult :=
  match argv.get? 1 with
  | none => ([], .panicked "called unwrap on a None value")
  | some privateKey =>
    match argv.get? 2 with
    | none => ([], .panicked "called unwrap on a None value")
    | some serverOrClient =>
      if serverOrClient = "s" then ([.genesisProposer privateKey], .ok)
      else ([.genesisNonProposer privateKey], .ok)

/-- What the (unreachable) top-level handler of main does with the result
of run: which error it reports to the operator, and whether the integrity
downcast succeeded. -/
structure HandlerResult where
  surfaced : Option RunError
  integrityClassified : Bool
deriving DecidableEq, Repr

/-- The top-level handler from main.rs: on an error from run, attempt the
IntegrityError downcast (its success branch is an empty placeholder), then
fall through and return Ok; no error is ever returned or printed. -/
def topLevelHandle (r : Except RunError Unit) : HandlerResult :=
  match r with
  | .ok _ => ⟨none, false⟩
  | .error .integrity => ⟨none, true⟩
  | .error _ => ⟨none, false⟩

/-! ## Hex codec lemmas -/

/-- Hexadecimal digit encoding and decoding are mutually inverse below 16. -/
theorem hexDigit_toHexChar_fin : ∀ i : Fin 16, hexDigit? (toHexChar i.val) = some i.val := by
  decide

/-- Nat version of the digit round trip. -/
theorem hexDigit_toHexChar (n : Nat) (h : n < 16) : hexDigit? (toHexChar n) = some n :=
  hexDigit_toHexChar_fin ⟨n, h⟩

/-- Encoding doubles the length. -/
theorem hexEncode_length (bs : List Nat) : (hexEncode bs).length = 2 * bs.length := by
  induction bs with
  | nil => rfl
  | cons b rest ih =>
    simp [hexEncode, hexEncodeByte, List.length_cons, ih]
    omega

/-- Pair decoding inverts encoding on byte lists. -/
theorem hexPairs_encode (bs : List Nat) (h : ∀ b ∈ bs, b < 256) :
    hexPairs (hexEncode bs) = Except.ok bs := by
  induction bs with
  | nil => rfl
  | cons b rest ih =>
    have hb : b < 256 := h b (by simp)
    have h1 : b / 16 < 16 := by omega
    have h2 : b % 16 < 16 := by omega
    have e1 := hexDigit_toHexChar _ h1
    have e2 := hexDigit_toHexChar _ h2
    have ihh := ih (fun x hx => h x (by simp [hx]))
    simp [hexEncode, hexEncodeByte, hexPairs, e1, e2, ihh]
    omega

/-- Full decoding inverts encoding on byte lists. -/
theorem hexDecode_encode (bs : List Nat) (h : ∀ b ∈ bs, b < 256) :
    hexDecode (hexEncode bs) = Except.ok bs := by
  unfold hexDecode
  rw [hexEncode_length]
  simp [Nat.mul_mod_right]
  exact hexPairs_encode bs h

/-- An even-length list of hexadecimal digits pair-decodes to half as many
bytes. -/
theorem hexPairs_ok : (l : List Char) → l.length % 2 = 0 →
    (∀ c ∈ l, (hexDigit? c).isSome = true) →
    ∃ bs, hexPairs l = Except.ok bs ∧ 2 * bs.length = l.length
  | [], _, _ => ⟨[], rfl, rfl⟩
  | [_], he, _ => by simp at he
  | a :: b :: rest, he, hall => by
    have hr : rest.length % 2 = 0 := by
      simp [List.length_cons] at he
      omega
    obtain ⟨hi, hha⟩ := Option.isSome_iff_exists.mp (hall a (by simp))
    obtain ⟨lo, hhb⟩ := Option.isSome_iff_exists.mp (hall b (by simp))
    obtain ⟨bs, hok, hlen⟩ := hexPairs_ok rest hr (fun c hc => hall c (by simp [hc]))
    refine ⟨(16 * hi + lo) :: bs, ?_, ?_⟩
    · simp [hexPairs, hha, hhb, hok]
    · simp [List.length_cons]
      omega

/-- An even-length list with a non-digit character pair-decodes to the
invalid-character error. -/
theorem hexPairs_invalid : (l : List Char) → l.length % 2 = 0 →
    ¬(∀ c ∈ l, (hexDigit? c).isSome = true) →
    hexPairs l = Except.error HexError.invalidChar
  | [], _, hn => absurd (by simp) hn
  | [_], he, _ => by simp at he
  | a :: b :: rest, he, hn => by
    cases hda : hexDigit? a with
    | none => simp [hexPairs, hda]
    | some hi =>
      cases hdb : hexDigit? b with
      | none => simp [hexPairs, hda, hdb]
      | some lo =>
        have hr : rest.length % 2 = 0 := by
          simp [List.length_cons] at he
          omega
        have hnr : ¬(∀ c ∈ rest, (hexDigit? c).isSome = true) := by
          intro hallr
          apply hn
          intro c hc
          rcases List.mem_cons.mp hc with h1 | h2
          · subst h1; simp [hda]
          · rcases List.mem_cons.mp h2 with h3 | h4
            · subst h3; simp [hdb]
            · exact hallr c h4
        have hrec := hexPairs_invalid rest hr hnr
        simp [hexPairs, hda, hdb, hrec]

/-- Decoding succeeds exactly on even-length all-digit input. -/
theorem hexDecode_ok_iff (l : List Char) :
    (∃ bs, hexDecode l = Except.ok bs) ↔
      (l.length % 2 = 0 ∧ ∀ c ∈ l, (hexDigit? c).isSome = true) := by
  constructor
  · rintro ⟨bs, hbs⟩
    unfold hexDecode at hbs
    by_cases he : l.length % 2 = 0
    · refine ⟨he, ?_⟩
      by_contra hn
      rw [if_pos he, hexPairs_invalid l he hn] at hbs
      exact absurd hbs (by simp)
    · rw [if_neg he] at hbs
      exact absurd hbs (by simp)
  · rintro ⟨he, hall⟩
    obtain ⟨bs, hok, _⟩ := hexPairs_ok l he hall
    refine ⟨bs, ?_⟩
    unfold hexDecode
    rw [if_pos he]
    exact hok

/-! ## Claim theorems -/

/-- C3: to_commit_hash fails with the invalid-hash error exactly when the
text is not valid hexadecimal, fails with the length error exactly when the
text is valid hexadecimal but decodes to a byte count other than 20, and
otherwise returns exactly the decoded 20 bytes, never truncating or
padding. -/
theorem to_commit_hash_spec (s : String) :
    (to_commit_hash s = Except.error "invalid hash" ↔ ¬ isValidHexStr s)
  ∧ (to_commit_hash s = Except.error "a hash must be in 20 bytes" ↔
      isValidHexStr s ∧ ∀ bs, hexDecode s.data = Except.ok bs → bs.length ≠ 20)
  ∧ (∀ h, to_commit_hash s = Except.ok h →
      hexDecode s.data = Except.ok h.hash ∧ h.hash.length = 20)
  ∧ (∀ bs, hexDecode s.data = Except.ok bs → bs.length = 20 →
      to_commit_hash s = Except.ok ⟨bs⟩) := by
  cases hd : hexDecode s.data with
  | error e =>
    have hnv : ¬ isValidHexStr s := by
      intro hv
      obtain ⟨bs, hbs⟩ := (hexDecode_ok_iff s.data).mpr hv
      rw [hd] at hbs
      exact absurd hbs (by simp)
    refine ⟨?_, ?_, ?_, ?_⟩
    · simp [to_commit_hash, hd, hnv]
    · constructor
      · intro hcontr
        simp [to_commit_hash, hd] at hcontr
      · rintro ⟨hv, _⟩
        exact absurd hv hnv
    · intro h hcontr
      simp [to_commit_hash, hd] at hcontr
    · intro bs hbs
      exact absurd hbs (by simp)
  | ok bs =>
    have hv : isValidHexStr s := (hexDecode_ok_iff s.data).mp ⟨bs, hd⟩
    by_cases h20 : bs.length = 20
    · refine ⟨?_, ?_, ?_, ?_⟩
      · simp [to_commit_hash, hd, h20, hv]
      · constructor
        · intro hcontr
          simp [to_commit_hash, hd, h20] at hcontr
        · rintro ⟨_, hall⟩
          exact absurd h20 (hall bs rfl)
      · intro h hok
        simp [to_commit_hash, hd, h20] at hok
        subst hok
        exact ⟨rfl, h20⟩
      · intro bs2 hbs2 h202
        simp at hbs2
        subst hbs2
        simp [to_commit_hash, hd, h20]
    · refine ⟨?_, ?_, ?_, ?_⟩
      · constructor
        · intro hcontr
          simp [to_commit_hash, hd, h20] at hcontr
        · intro hnv
          exact absurd hv hnv
      · constructor
        · intro _
          refine ⟨hv, ?_⟩
          intro bs2 hbs2
          simp at hbs2
          subst hbs2
          exact h20
        · intro _
          simp [to_commit_hash, hd, h20]
      · intro h hcontr
        simp [to_commit_hash, hd, h20] at hcontr
      · intro bs2 hbs2 h202
        simp at hbs2
        subst hbs2
        exact absurd h202 h20

/-- C3 witness: forty zero characters decode to the twenty-byte zero
commit hash. -/
theorem to_commit_hash_spec_witness :
    to_commit_hash (String.mk (List.replicate 40 '0')) =
      Except.ok ⟨List.replicate 20 0⟩ :=
  (to_commit_hash_spec (String.mk (List.replicate 40 '0'))).2.2.2
    (List.replicate 20 0) rfl rfl

/-- C4: encoding any 20-byte sequence to hexadecimal and then decoding it
with to_commit_hash returns the original sequence unchanged. -/
theorem encode_then_decode_roundtrip (bs : List Nat) (hlen : bs.length = 20)
    (hbytes : ∀ b ∈ bs, b < 256) :
    to_commit_hash (String.mk (hexEncode bs)) = Except.ok ⟨bs⟩ := by
  have hd : hexDecode (String.mk (hexEncode bs)).data = Except.ok bs :=
    hexDecode_encode bs hbytes
  simp [to_commit_hash, hd, hlen]

/-- C4 witness: the round trip at a concrete 20-byte sequence. -/
theorem encode_then_decode_roundtrip_witness :
    to_commit_hash (String.mk (hexEncode (List.replicate 20 171))) =
      Except.ok ⟨List.replicate 20 171⟩ :=
  encode_then_decode_roundtrip (List.replicate 20 171) (by decide) (by decide)

/-- C5: create tx-delegate decodes fields fail-fast and first-error-wins
in the order delegator, delegatee, proof: the first failing field yields
its role-specific error and no later field is attempted; with delegator
and delegatee valid and the proof malformed the result is exactly the
proof-specific error. -/
theorem create_tx_delegate_fail_fast (dec : Decoders) (now : Timestamp) (config : Config)
    (delegator delegatee : String) (governance : Bool) (proof : String) :
    (dec.decodePublicKey delegator = none →
      run dec now config (.create (.txDelegate delegator delegatee governance proof)) =
        ([.initNode, .decodeAttempt .delegator],
          .error (.validation "invalid delegator for a delegation transaction")) ∧
      Event.decodeAttempt FieldRole.delegatee ∉
        (run dec now config (.create (.txDelegate delegator delegatee governance proof))).1 ∧
      Event.decodeAttempt FieldRole.proof ∉
        (run dec now config (.create (.txDelegate delegator delegatee governance proof))).1)
  ∧ (∀ dgr, dec.decodePublicKey delegator = some dgr →
      dec.decodePublicKey delegatee = none →
      run dec now config (.create (.txDelegate delegator delegatee governance proof)) =
        ([.initNode, .decodeAttempt .delegator, .decodeAttempt .delegatee],
          .error (.validation "invalid delegatee for a delegation transaction")) ∧
      Event.decodeAttempt FieldRole.proof ∉
        (run dec now config (.create (.txDelegate delegator delegatee governance proof))).1)
  ∧ (∀ dgr dge, dec.decodePublicKey delegator = some dgr →
      dec.decodePublicKey delegatee = some dge →
      dec.decodeSignature proof = none →
      run dec now config (.create (.txDelegate delegator delegatee governance proof)) =
        ([.initNode, .decodeAttempt .delegator, .decodeAttempt .delegatee,
          .decodeAttempt .proof],
          .error (.validation "invalid proof for a delegation transaction")))
  ∧ (∀ dgr dge prf, dec.decodePublicKey delegator = some dgr →
      dec.decodePublicKey delegatee = some dge →
      dec.decodeSignature proof = some prf →
      run dec now config (.create (.txDelegate delegator delegatee governance proof)) =
        ([.initNode, .decodeAttempt .delegator, .decodeAttempt .delegatee,
          .decodeAttempt .proof,
          .nodeOp (.createExtraAgendaTransaction
            (.delegate ⟨dgr, dge, governance, prf, now⟩))], .ok)) := by
  refine ⟨?_, ?_, ?_, ?_⟩
  · intro h1
    have heq : run dec now config (.create (.txDelegate delegator delegatee governance proof)) =
        ([.initNode, .decodeAttempt .delegator],
          .error (.validation "invalid delegator for a delegation transaction")) := by
      simp [run, h1]
    refine ⟨heq, ?_, ?_⟩ <;> rw [heq] <;> decide
  · intro dgr h1 h2
    have heq : run dec now config (.create (.txDelegate delegator delegatee governance proof)) =
        ([.initNode, .decodeAttempt .delegator, .decodeAttempt .delegatee],
          .error (.validation "invalid delegatee for a delegation transaction")) := by
      simp [run, h1, h2]
    refine ⟨heq, ?_⟩
    rw [heq]
    decide
  · intro dgr dge h1 h2 h3
    simp [run, h1, h2, h3]
  · intro dgr dge prf h1 h2 h3
    simp [run, h1, h2, h3]

/-- C5 witness: with the concrete spec decoders, a malformed delegator
fails with the delegator error, and a valid delegator and delegatee with
a malformed proof fail with the proof-specific error. -/
theorem create_tx_delegate_fail_fast_witness :
    (run specDecoders 0 sampleConfig
        (.create (.txDelegate "zz" (String.mk (List.replicate 64 '0')) true "qq")) =
      ([.initNode, .decodeAttempt .delegator],
        .error (.validation "invalid delegator for a delegation transaction")))
  ∧ (run specDecoders 0 sampleConfig
        (.create (.txDelegate (String.mk (List.replicate 64 '0'))
          (String.mk (List.replicate 64 '0')) true "zz")) =
      ([.initNode, .decodeAttempt .delegator, .decodeAttempt .delegatee,
        .decodeAttempt .proof],
        .error (.validation "invalid proof for a delegation transaction"))) :=
  ⟨((create_tx_delegate_fail_fast specDecoders 0 sampleConfig "zz"
      (String.mk (List.replicate 64 '0')) true "qq").1 rfl).1,
   (create_tx_delegate_fail_fast specDecoders 0 sampleConfig
      (String.mk (List.replicate 64 '0')) (String.mk (List.replicate 64 '0')) true "zz").2.2.1
      ⟨List.replicate 32 0⟩ ⟨List.replicate 32 0⟩ rfl rfl rfl⟩

/-- C6: veto with no commit argument invokes exactly veto_round with no
hash decoding; with an argument, the hash is decoded first and on success
exactly veto_block on the decoded hash is invoked; on decode failure a
validation error is returned before any veto operation. -/
theorem veto_dispatch (dec : Decoders) (now : Timestamp) (config : Config) :
    (run dec now config (.veto none) = ([.initNode, .nodeOp .vetoRound], .ok))
  ∧ (∀ f, Event.decodeAttempt f ∉ (run dec now config (.veto none)).1)
  ∧ (∀ s h, dec.decodeCommitHash s = some h →
      run dec now config (.veto (some s)) =
        ([.initNode, .decodeAttempt .vetoTarget, .nodeOp (.vetoBlock h)], .ok))
  ∧ (∀ s, dec.decodeCommitHash s = none →
      run dec now config (.veto (some s)) =
        ([.initNode, .decodeAttempt .vetoTarget],
          .error (.validation "invalid block commit hash to veto on")) ∧
      (∀ h2, Event.nodeOp (NodeOp.vetoBlock h2) ∉ (run dec now config (.veto (some s))).1) ∧
      Event.nodeOp NodeOp.vetoRound ∉ (run dec now config (.veto (some s))).1) := by
  refine ⟨by simp [run], ?_, ?_, ?_⟩
  · intro f
    simp [run]
  · intro s h hdec
    simp [run, hdec]
  · intro s hdec
    have heq : run dec now config (.veto (some s)) =
        ([.initNode, .decodeAttempt .vetoTarget],
          .error (.validation "invalid block commit hash to veto on")) := by
      simp [run, hdec]
    refine ⟨heq, ?_, ?_⟩
    · intro h2
      rw [heq]
      simp
    · rw [heq]
      decide

/-- C6 witness: with the spec decoders, forty hexadecimal characters
dispatch to veto_block on the decoded hash and thirty-nine fail validation
with no veto operation invoked. -/
theorem veto_dispatch_witness :
    (run specDecoders 0 sampleConfig (.veto (some (String.mk (List.replicate 40 '0')))) =
      ([.initNode, .decodeAttempt .vetoTarget,
        .nodeOp (.vetoBlock ⟨List.replicate 20 0⟩)], .ok))
  ∧ (run specDecoders 0 sampleConfig (.veto (some (String.mk (List.replicate 39 '0')))) =
      ([.initNode, .decodeAttempt .vetoTarget],
        .error (.validation "invalid block commit hash to veto on"))) :=
  ⟨(veto_dispatch specDecoders 0 sampleConfig).2.2.1
      (String.mk (List.replicate 40 '0')) ⟨List.replicate 20 0⟩ rfl,
   ((veto_dispatch specDecoders 0 sampleConfig).2.2.2
      (String.mk (List.replicate 39 '0')) rfl).1⟩

/-- C7: sign custom with 64 hexadecimal characters signs the decoded
32-byte hash with the private key of the configuration; hexadecimal text
of any other length fails with a length error (the odd-length hex error
or the 32-byte message) and produces no sign event. -/
theorem sign_custom_spec (dec : Decoders) (now : Timestamp) (config : Config) (s : String)
    (hall : ∀ c ∈ s.data, (hexDigit? c).isSome = true) :
    (s.data.length = 64 →
      ∃ bytes, hexDecode s.data = Except.ok bytes ∧ bytes.length = 32 ∧
        run dec now config (.sign (.custom s)) =
          ([Event.sign (signHash ⟨bytes⟩ config.private_key)], RunResult.ok))
  ∧ (s.data.length ≠ 64 →
      ∃ e, run dec now config (.sign (.custom s)) = ([], RunResult.error e) ∧
        isLengthError e) := by
  constructor
  · intro h64
    have he : s.data.length % 2 = 0 := by omega
    obtain ⟨bs, hok, hlen⟩ := hexPairs_ok s.data he hall
    have hdec : hexDecode s.data = Except.ok bs := by
      unfold hexDecode
      rw [if_pos he]
      exact hok
    refine ⟨bs, hdec, by omega, ?_⟩
    simp [run, hdec, show bs.length = 32 by omega]
  · intro hne
    by_cases he : s.data.length % 2 = 0
    · obtain ⟨bs, hok, hlen⟩ := hexPairs_ok s.data he hall
      have hdec : hexDecode s.data = Except.ok bs := by
        unfold hexDecode
        rw [if_pos he]
        exact hok
      refine ⟨.validation "a hash must be in 32 bytes", ?_, ?_⟩
      · simp [run, hdec, show ¬ bs.length = 32 by omega]
      · simp [isLengthError]
    · have hdec : hexDecode s.data = Except.error HexError.oddLength := by
        unfold hexDecode
        rw [if_neg he]
      exact ⟨.hexErr .oddLength, by simp [run, hdec], by simp [isLengthError]⟩

/-- C7 witness: 64 zero characters produce a signature over the 32 zero
bytes, and 63 zero characters fail with a length error with no signing. -/
theorem sign_custom_spec_witness :
    (∃ bytes, hexDecode (String.mk (List.replicate 64 '0')).data = Except.ok bytes ∧
        bytes.length = 32 ∧
        run specDecoders 0 sampleConfig
          (.sign (.custom (String.mk (List.replicate 64 '0')))) =
          ([Event.sign (signHash ⟨bytes⟩ sampleConfig.private_key)], RunResult.ok))
  ∧ (∃ e, run specDecoders 0 sampleConfig
        (.sign (.custom (String.mk (List.replicate 63 '0')))) =
        ([], RunResult.error e) ∧ isLengthError e) :=
  ⟨(sign_custom_spec specDecoders 0 sampleConfig
      (String.mk (List.replicate 64 '0')) (by decide)).1 (by decide),
   (sign_custom_spec specDecoders 0 sampleConfig
      (String.mk (List.replicate 63 '0')) (by decide)).2 (by decide)⟩

/-- C1: when the first two process arguments are present, main runs the
genesis proposer flow when the second is the letter s and the non-proposer
flow otherwise and returns Ok; and on every invocation the CLI parse, the
config load and the command router run are never reached. -/
theorem main_entry_spec :
    (∀ argv key soc, argv.get? 1 = some key → argv.get? 2 = some soc →
      mainEntry argv =
        (if soc = "s" then ([MainAction.genesisProposer key], MainResult.ok)
         else ([MainAction.genesisNonProposer key], MainResult.ok)))
  ∧ (∀ argv, MainAction.callRun ∉ (mainEntry argv).1 ∧
      MainAction.parseCliArguments ∉ (mainEntry argv).1 ∧
      MainAction.loadConfig ∉ (mainEntry argv).1) := by
  constructor
  · intro argv key soc h1 h2
    rw [List.get?_eq_getElem?] at h1 h2
    simp [mainEntry, h1, h2]
  · intro argv
    unfold mainEntry
    cases argv.get? 1 with
    | none => simp
    | some k =>
      cases argv.get? 2 with
      | none => simp
      | some soc =>
        by_cases hs : soc = "s" <;> simp [hs]

/-- C1 witness: a concrete invocation with the proposer flag runs the
proposer flow and none of the router actions. -/
theorem main_entry_spec_witness :
    mainEntry ["simperby", "k", "s"] = ([MainAction.genesisProposer "k"], MainResult.ok) ∧
    MainAction.callRun ∉ (mainEntry ["simperby", "k", "s"]).1 := by
  constructor
  · have := main_entry_spec.1 ["simperby", "k", "s"] "k" "s" rfl rfl
    simpa using this
  · exact (main_entry_spec.2 ["simperby", "k", "s"]).1

/-- C2 counterexample: a non-integrity error returned by run is not
surfaced by the top-level handler; the handler swallows it and the
process result carries no error message. -/
theorem top_level_swallows_counterexample :
    topLevelHandle (Except.error (RunError.validation "invalid hash")) =
      ⟨none, false⟩ := rfl

/-- C2 amended: the top-level handler classifies the integrity error
distinctly from all other errors via the downcast, but surfaces no error
at all: every error from run, integrity or not, is swallowed. -/
theorem top_level_handler_spec (e : RunError) :
    (topLevelHandle (Except.error e)).surfaced = none ∧
    ((topLevelHandle (Except.error e)).integrityClassified = true ↔
      e = RunError.integrity) := by
  cases e <;> simp [topLevelHandle]

/-- C8 counterexample: two sign tx-delegate invocations with identical
field values at two different clock values produce identical traces and
identical signature bytes, so construction time does not influence the
signature. -/
theorem sign_tx_delegate_timestamp_counterexample :
    run specDecoders 100 sampleConfig
        (.sign (.txDelegate (String.mk (List.replicate 64 '0')) true 10)) =
      run specDecoders 200 sampleConfig
        (.sign (.txDelegate (String.mk (List.replicate 64 '0')) true 10)) := rfl

/-- C8 amended: the delegation payload built by the sign path has no
timestamp field, so its construction and the produced signature are
independent of the process clock: equal field values give equal
signatures at any two construction times. -/
theorem sign_tx_delegate_clock_independent (dec : Decoders) (t1 t2 : Timestamp)
    (config : Config) (delegatee : String) (governance : Bool) (height : BlockHeight) :
    run dec t1 config (.sign (.txDelegate delegatee governance height)) =
      run dec t2 config (.sign (.txDelegate delegatee governance height)) := rfl

/-- C9: a typed signature produced over a delegation payload is never
accepted when verified against any undelegation payload, under any public
key, including the one matching the signing private key. -/
theorem typed_signature_no_cross_type (d : DelegationTransactionData) (key : PrivateKey)
    (u : UndelegationTransactionData) (pk : PublicKey) :
    verifyUndelegation (signDelegation d key) u pk = false := rfl

/-- C10: every unimplemented command produces the explicit visible
not-implemented panic with an empty trace; the panicked outcome is a
distinct constructor from ok, so none of these commands completes as a
silent success or silent no-op. -/
theorem unimplemented_commands_spec (dec : Decoders) (now : Timestamp) (config : Config) :
    run dec now config .init = ([], .panicked "not yet implemented")
  ∧ run dec now config .git = ([], .panicked "not yet implemented")
  ∧ run dec now config .network = ([], .panicked "not yet implemented")
  ∧ run dec now config .chat =
      ([], .panicked "not yet implemented: chat is not implemented yet")
  ∧ run dec now config (.create .txReport) =
      ([], .panicked "not yet implemented: TxReport is not implemented yet")
  ∧ run dec now config .checkPush =
      ([], .panicked "not yet implemented: check push is not implemented yet")
  ∧ run dec now config .notifyPush =
      ([], .panicked "not yet implemented: notify push is not implemented yet")
  ∧ (∀ msg, (RunResult.panicked msg = RunResult.ok) = False) := by
  refine ⟨rfl, rfl, rfl, rfl, rfl, rfl, rfl, ?_⟩
  intro msg
  simp

end Simperby
